import Mathlib

/-!
Verification of the mybazar-logger repository (Go).

The development shallowly embeds the latest revision of the logger
(`logger.go`, the variant using the external rabbitmq-go client) and the
RabbitMQ wrapper (`rabbitMQ/rabbitmq.go`).  Machine `int` values are
modelled as `Int`; Go `error` results are modelled with `Option String` /
`Except`; the `any`-typed request payload is modelled as a tagged value
covering byte slices, strings, JSON-serializable structured values and
unserializable values (channels, functions, ...), mirroring the type
switch in `populateLogRequest`.
-/

namespace MBLogger

/-! ### JSON text encoding (model of Go `encoding/json` output) -/

/-- Escape table used when writing a JSON string: the character codes that
follow a backslash.  Quote and backslash must be escaped; the common
control characters are written with their short escapes. -/
def escapeCode (c : Char) : Option Char :=
  if c = '\"' then some '\"'
  else if c = '\\' then some '\\'
  else if c = '\n' then some 'n'
  else if c = '\t' then some 't'
  else if c = '\r' then some 'r'
  else none

/-- Encode one character of a JSON string body. -/
def escapeChar (c : Char) : List Char :=
  match escapeCode c with
  | some d => ['\\', d]
  | none => [c]

/-- Encode the body of a JSON string. -/
def escapeList : List Char → List Char
  | [] => []
  | c :: cs => escapeChar c ++ escapeList cs

/-- A JSON string literal: quote, escaped body, quote. -/
def encodeStringLit (s : String) : List Char :=
  '\"' :: (escapeList s.data ++ ['\"'])

/-- The decimal digit characters. -/
def digitChar (d : Nat) : Char :=
  match d with
  | 0 => '0' | 1 => '1' | 2 => '2' | 3 => '3' | 4 => '4'
  | 5 => '5' | 6 => '6' | 7 => '7' | 8 => '8' | _ => '9'

/-- Recognize a decimal digit character. -/
def isDigitChar (c : Char) : Bool :=
  decide (48 ≤ c.toNat) && decide (c.toNat ≤ 57)

/-- Decimal digits of a natural number, most significant first
(fuel-bounded division loop; `fuel ≥ n` suffices). -/
def encodeNatAux : Nat → Nat → List Char
  | 0, _ => []
  | fuel + 1, n =>
    if n = 0 then [] else encodeNatAux fuel (n / 10) ++ [digitChar (n % 10)]

/-- Decimal rendering of a natural number, most significant digit first. -/
def encodeNat (n : Nat) : List Char :=
  if n = 0 then ['0'] else encodeNatAux n n

/-- Decimal rendering of an integer (Go `strconv`-style, minus sign for
negative values). -/
def encodeInt (n : Int) : List Char :=
  if n < 0 then '-' :: encodeNat n.natAbs else encodeNat n.toNat

/-! ### Structured payload values

Go's `any`-typed request payload: the type switch in `populateLogRequest`
distinguishes `[]byte`, `string`, and everything else, the latter being
handed to `json.Marshal`.  `JsonVal` models the values `json.Marshal`
serializes successfully (Go `nil` is `JsonVal.jnull`, marshalled to the
text `null`); `GoValue.unserializable` models the values on which
`json.Marshal` returns an error (channels, functions, cyclic data). -/

inductive JsonVal where
  | jnull
  | jbool (b : Bool)
  | jnum (n : Int)
  | jstr (s : String)
  | jarr (xs : List JsonVal)
  | jobj (fs : List (String × JsonVal))
deriving Repr

mutual

/-- Serialization of a structured JSON value (model of `json.Marshal` on
a marshalable value). -/
def serializeJson : JsonVal → List Char
  | .jnull => "null".data
  | .jbool true => "true".data
  | .jbool false => "false".data
  | .jnum n => encodeInt n
  | .jstr s => encodeStringLit s
  | .jarr xs => '[' :: (serializeJsonArr xs ++ [']'])
  | .jobj fs => '\x7b' :: (serializeJsonObj fs ++ ['\x7d'])

/-- Comma-separated serialization of array elements. -/
def serializeJsonArr : List JsonVal → List Char
  | [] => []
  | [x] => serializeJson x
  | x :: xs => serializeJson x ++ ',' :: serializeJsonArr xs

/-- Comma-separated serialization of object members. -/
def serializeJsonObj : List (String × JsonVal) → List Char
  | [] => []
  | [(k, v)] => encodeStringLit k ++ ':' :: serializeJson v
  | (k, v) :: fs => encodeStringLit k ++ ':' :: serializeJson v ++ ',' :: serializeJsonObj fs

end

/-- A dynamically typed Go value arriving in the `any`-typed
`RequestPayload` field.  `bytes` is a `[]byte` (decoded as text), `str` a
`string`, `json` any other value that `json.Marshal` accepts (Go `nil` is
`.json .jnull`), and `unserializable` any other value on which
`json.Marshal` fails, carrying the error message. -/
inductive GoValue where
  | bytes (s : String)
  | str (s : String)
  | json (v : JsonVal)
  | unserializable (desc : String)
deriving Repr

/-! ### Data model of the logger (latest revision of `logger.go`) -/

/-- `logRequest`: the fully populated wire record sent to RabbitMQ.
`Timestamp` holds the textual (RFC3339) rendering of `time.Now()`. -/
structure logRequest where
  Timestamp : String
  ErrorLevel : String
  ErrorCode : Int
  ClientMessageUz : String
  ClientMessageRu : String
  ErrorMessage : String
  DetailsUz : String
  DetailsRu : String
  ApiEndpoint : String
  Method : String
  FunctionName : String
  StatusCode : Int
  RequestPayload : String
  EventType : String
  ResponseData : String
  MerchantApiKey : String
deriving Repr, DecidableEq

/-- `LogRequest`: the partial, user-supplied record.  `RequestPayload`
is `any`-typed in Go, modelled by `GoValue`. -/
structure LogRequest where
  ErrorCode : Int
  ClientMessageUz : String
  ClientMessageRu : String
  ErrorMessage : String
  DetailsUz : String
  DetailsRu : String
  ApiEndpoint : String
  Method : String
  StatusCode : Int
  RequestPayload : GoValue
  EventType : String
  ResponseData : String
  MerchantApiKey : String
deriving Repr

/-- `Order`: the raw order-notification payload. -/
structure Order where
  OrderText : String
  MerchantId : String
deriving Repr, DecidableEq

/-- Go `error` values returned by the logger, tagged by origin:
`json.Marshal` failure in payload normalization, a validation failure, or
a transport (`PublishMessage`) failure. -/
inductive OpError where
  | serializationErr (msg : String)
  | validationErr (msg : String)
  | transportErr (msg : String)
deriving Repr, DecidableEq

/-- The body handed to `rabbitmq.PublishMessage` (the latest revision
passes the structured value itself, not pre-marshalled bytes). -/
inductive PublishBody where
  | logBody (r : logRequest)
  | orderBody (o : Order)
deriving Repr, DecidableEq

/-- One invocation of `rabbitmq.PublishMessage(queueName, exchangeName,
body)`. -/
structure PublishCall where
  queueName : String
  exchangeName : String
  body : PublishBody
deriving Repr, DecidableEq

/-- The `logger` struct: configured queue names, function name and
API-endpoint fallback, plus the transport outcome (the error, if any,
that `rabbitmq.PublishMessage` would return for a given call). -/
structure LoggerState where
  queue : String
  orderQueue : String
  functionName : String
  apiEndpoint : String
  publishOutcome : String → PublishBody → Option String

/-! ### Record Builder (`populateLogRequest` + `validateLogRequest`) -/

/-- The type switch at the top of `populateLogRequest`: `[]byte` used
as-is, `string` used as-is, anything else given to `json.Marshal`,
whose failure aborts the build. -/
def normalizePayload : GoValue → Except OpError String
  | .bytes s => .ok s
  | .str s => .ok s
  | .json v => .ok (String.mk (serializeJson v))
  | .unserializable desc => .error (.serializationErr desc)

/-- `populateLogRequest`: normalize the payload, stamp the time, severity
and function name, then apply the endpoint and status-code fallbacks.
`now` stands for `time.Now()`. -/
def populateLogRequest (l : LoggerState) (log : LogRequest) (errorLevel : String)
    (now : String) : Except OpError logRequest :=
  match normalizePayload log.RequestPayload with
  | .error e => .error e
  | .ok body =>
    let r0 : logRequest :=
      { Timestamp := now
        ErrorLevel := errorLevel
        ErrorCode := log.ErrorCode
        ClientMessageUz := log.ClientMessageUz
        ClientMessageRu := log.ClientMessageRu
        ErrorMessage := log.ErrorMessage
        DetailsUz := log.DetailsUz
        DetailsRu := log.DetailsRu
        ApiEndpoint := log.ApiEndpoint
        Method := log.Method
        FunctionName := l.functionName
        StatusCode := log.StatusCode
        RequestPayload := body
        EventType := log.EventType
        ResponseData := log.ResponseData
        MerchantApiKey := log.MerchantApiKey }
    let r1 := if log.ApiEndpoint = "" then { r0 with ApiEndpoint := l.apiEndpoint } else r0
    let r2 := if log.StatusCode = 0 then { r1 with StatusCode := 200 } else r1
    .ok r2

/-- `validateLogRequest`: required-field checks, in source order.  Returns
the error message, or `none` on success. -/
def validateLogRequest (log : logRequest) : Option String :=
  if log.ErrorCode = 0 then
    some "error_code is required"
  else if log.ClientMessageUz = "" ∧ log.ClientMessageRu = "" then
    some "at least one client message (Uz or Ru) is required"
  else if log.ErrorLevel = "" ∨ ((log.ErrorLevel = "error" ∨ log.ErrorLevel = "critical") ∧ log.RequestPayload = "") then
    some "request payload is required for this error level"
  else
    none

/-- The Record Builder operation `Build` of the design: the
populate-then-validate composition every severity method performs. -/
def Build (l : LoggerState) (log : LogRequest) (errorLevel : String) (now : String) :
    Except OpError logRequest :=
  match populateLogRequest l log errorLevel now with
  | .error e => .error e
  | .ok r =>
    match validateLogRequest r with
    | some m => .error (.validationErr m)
    | none => .ok r

/-! ### Logger Facade (severity methods and `OrderNotification`)

Each operation returns its Go `error` result (`none` on success) paired
with the list of `PublishMessage` calls it performed. -/

/-- The `l.rabbitmq.PublishMessage(q, "", body)` step. -/
def publishStep (l : LoggerState) (q : String) (b : PublishBody) :
    Option OpError × List PublishCall :=
  ((l.publishOutcome q b).map OpError.transportErr, [⟨q, "", b⟩])

/-- `Info`: build with severity tag `"info"`, then publish to the log
queue. -/
def Info (l : LoggerState) (log : LogRequest) (now : String) :
    Option OpError × List PublishCall :=
  match Build l log "info" now with
  | .error e => (some e, [])
  | .ok fullLog => publishStep l l.queue (.logBody fullLog)

/-- `Warn`: as written in the source it builds with severity tag
`"info"` (copy-paste of the `Info` body), then publishes to the log
queue. -/
def Warn (l : LoggerState) (log : LogRequest) (now : String) :
    Option OpError × List PublishCall :=
  match Build l log "info" now with
  | .error e => (some e, [])
  | .ok fullLog => publishStep l l.queue (.logBody fullLog)

/-- `Error`: as written in the source it builds with severity tag
`"info"` (copy-paste of the `Info` body), then publishes to the log
queue. -/
def Error (l : LoggerState) (log : LogRequest) (now : String) :
    Option OpError × List PublishCall :=
  match Build l log "info" now with
  | .error e => (some e, [])
  | .ok fullLog => publishStep l l.queue (.logBody fullLog)

/-- `Critical`: as written in the source it builds with severity tag
`"info"` (copy-paste of the `Info` body), then publishes to the log
queue. -/
def Critical (l : LoggerState) (log : LogRequest) (now : String) :
    Option OpError × List PublishCall :=
  match Build l log "info" now with
  | .error e => (some e, [])
  | .ok fullLog => publishStep l l.queue (.logBody fullLog)

/-- `OrderNotification`: as written in the source it publishes the raw
order to `l.queue` (the primary log queue), with no use of
`l.orderQueue` and no validation. -/
def OrderNotification (l : LoggerState) (o : Order) :
    Option OpError × List PublishCall :=
  publishStep l l.queue (.orderBody o)

/-! ### Wire serialization of the log record (model of `json.Marshal` /
`json.Unmarshal` on the `logRequest` struct)

The struct marshals to a JSON object whose members appear in field order;
the four `omitempty` fields are skipped when empty.  Unmarshalling parses
the object and fills each struct field from the member of the matching
json tag, leaving the zero value when the member is absent. -/

/-- A JSON member value of the wire record: all fields are strings except
the two integer fields. -/
inductive JField where
  | fstr (s : String)
  | fint (n : Int)
deriving Repr, DecidableEq

/-- Encode one member value. -/
def encodeField : JField → List Char
  | .fstr s => encodeStringLit s
  | .fint n => encodeInt n

/-- Encode one `"key":value` member. -/
def encodePair (p : String × JField) : List Char :=
  encodeStringLit p.1 ++ ':' :: encodeField p.2

/-- Encode the comma-separated member list. -/
def encodePairs : List (String × JField) → List Char
  | [] => []
  | [p] => encodePair p
  | p :: ps => encodePair p ++ ',' :: encodePairs ps

/-- Encode a JSON object. -/
def encodeObj (ps : List (String × JField)) : List Char :=
  '\x7b' :: (encodePairs ps ++ ['\x7d'])

/-- The members of the wire object for a record, in struct-field order,
with the `omitempty` fields (`details_uz`, `details_ru`, `response_data`,
`merchant_api_key`) skipped when empty. -/
def wireFields (r : logRequest) : List (String × JField) :=
  [("timestamp", .fstr r.Timestamp),
   ("error_level", .fstr r.ErrorLevel),
   ("error_code", .fint r.ErrorCode),
   ("client_message_uz", .fstr r.ClientMessageUz),
   ("client_message_ru", .fstr r.ClientMessageRu),
   ("error_message", .fstr r.ErrorMessage)]
  ++ (if r.DetailsUz = "" then [] else [("details_uz", .fstr r.DetailsUz)])
  ++ (if r.DetailsRu = "" then [] else [("details_ru", .fstr r.DetailsRu)])
  ++ [("api_endpoint", .fstr r.ApiEndpoint),
      ("method", .fstr r.Method),
      ("function_name", .fstr r.FunctionName),
      ("status_code", .fint r.StatusCode),
      ("request_payload", .fstr r.RequestPayload),
      ("event_type", .fstr r.EventType)]
  ++ (if r.ResponseData = "" then [] else [("response_data", .fstr r.ResponseData)])
  ++ (if r.MerchantApiKey = "" then [] else [("merchant_api_key", .fstr r.MerchantApiKey)])

/-- `json.Marshal` on the record: the serialized wire object. -/
def jsonMarshal (r : logRequest) : String :=
  String.mk (encodeObj (wireFields r))

/-- Decode table for backslash escapes in a JSON string. -/
def unescapeCode (c : Char) : Option Char :=
  if c = '\"' then some '\"'
  else if c = '\\' then some '\\'
  else if c = 'n' then some '\n'
  else if c = 't' then some '\t'
  else if c = 'r' then some '\r'
  else none

/-- Parse the body of a JSON string up to and including the closing
quote, undoing escapes. -/
def parseStringBody : List Char → Option (List Char × List Char)
  | [] => none
  | c :: rest =>
    if c = '\"' then some ([], rest)
    else if c = '\\' then
      match rest with
      | [] => none
      | d :: rest2 =>
        match unescapeCode d, parseStringBody rest2 with
        | some u, some p => some (u :: p.1, p.2)
        | _, _ => none
    else
      match parseStringBody rest with
      | some p => some (c :: p.1, p.2)
      | none => none

/-- Parse a JSON string literal. -/
def parseStringLit : List Char → Option (String × List Char)
  | [] => none
  | c :: rest =>
    if c = '\"' then (parseStringBody rest).map fun p => (String.mk p.1, p.2)
    else none

/-- Take the maximal run of leading decimal digits. -/
def takeDigits : List Char → List Char × List Char
  | [] => ([], [])
  | c :: rest =>
    if isDigitChar c then
      let p := takeDigits rest
      (c :: p.1, p.2)
    else ([], c :: rest)

/-- Value of a digit-character run, most significant first. -/
def digitsVal (ds : List Char) : Nat :=
  Nat.ofDigits 10 ((ds.map fun c => c.toNat - 48).reverse)

/-- Parse a decimal natural number (at least one digit). -/
def parseNat (cs : List Char) : Option (Nat × List Char) :=
  let p := takeDigits cs
  if p.1 = [] then none else some (digitsVal p.1, p.2)

/-- Parse a decimal integer with an optional minus sign. -/
def parseInt (cs : List Char) : Option (Int × List Char) :=
  match cs with
  | [] => none
  | c :: rest =>
    if c = '-' then (parseNat rest).map fun p => (-(p.1 : Int), p.2)
    else (parseNat (c :: rest)).map fun p => ((p.1 : Int), p.2)

/-- Does the input not start with a decimal digit?  (A number token ends
exactly at the first non-digit.) -/
def noLeadDigit : List Char → Bool
  | [] => true
  | c :: _ => !isDigitChar c

/-- Parse a member value: a string if one starts here, otherwise a
number. -/
def parseField (cs : List Char) : Option (JField × List Char) :=
  match parseStringLit cs with
  | some p => some (JField.fstr p.1, p.2)
  | none => (parseInt cs).map fun p => (JField.fint p.1, p.2)

/-- Parse one `"key":value` member. -/
def parsePair (cs : List Char) : Option ((String × JField) × List Char) :=
  match parseStringLit cs with
  | none => none
  | some (k, r1) =>
    match r1 with
    | ':' :: r2 => (parseField r2).map fun p => ((k, p.1), p.2)
    | _ => none

/-- Parse a comma-separated member list (fuel-bounded; one unit of fuel
per member suffices). -/
def parsePairsAux : Nat → List Char → Option (List (String × JField) × List Char)
  | 0, _ => none
  | fuel + 1, cs =>
    match parsePair cs with
    | none => none
    | some (p, rest) =>
      match rest with
      | ',' :: rest2 => (parsePairsAux fuel rest2).map fun q => (p :: q.1, q.2)
      | _ => some ([p], rest)

/-- Parse a JSON object into its member list. -/
def parseObj (cs : List Char) : Option (List (String × JField) × List Char) :=
  match cs with
  | [] => none
  | c :: rest =>
    if c = '\x7b' then
      match rest with
      | [] => none
      | d :: r2 =>
        if d = '\x7d' then some ([], r2)
        else
          match parsePairsAux (d :: r2).length (d :: r2) with
          | some (ps, e :: r3) => if e = '\x7d' then some (ps, r3) else none
          | _ => none
    else none

/-- Look up a member by key. -/
def lookupF : List (String × JField) → String → Option JField
  | [], _ => none
  | p :: ps, k => if p.1 = k then some p.2 else lookupF ps k

/-- Read a string field: absent members leave the zero value `""`; a
number in a string field is a type error (`json.Unmarshal` fails). -/
def getStr (ps : List (String × JField)) (k : String) : Option String :=
  match lookupF ps k with
  | none => some ""
  | some (.fstr s) => some s
  | some (.fint _) => none

/-- Read an integer field: absent members leave the zero value `0`; a
string in a number field is a type error (`json.Unmarshal` fails). -/
def getInt (ps : List (String × JField)) (k : String) : Option Int :=
  match lookupF ps k with
  | none => some 0
  | some (.fint n) => some n
  | some (.fstr _) => none

/-- Rebuild a record from the parsed members (model of `json.Unmarshal`
filling the struct fields by json tag). -/
def recordOfPairs (ps : List (String × JField)) : Option logRequest := do
  let timestamp ← getStr ps "timestamp"
  let errorLevel ← getStr ps "error_level"
  let errorCode ← getInt ps "error_code"
  let cmUz ← getStr ps "client_message_uz"
  let cmRu ← getStr ps "client_message_ru"
  let errorMessage ← getStr ps "error_message"
  let dUz ← getStr ps "details_uz"
  let dRu ← getStr ps "details_ru"
  let apiEndpoint ← getStr ps "api_endpoint"
  let method ← getStr ps "method"
  let functionName ← getStr ps "function_name"
  let statusCode ← getInt ps "status_code"
  let requestPayload ← getStr ps "request_payload"
  let eventType ← getStr ps "event_type"
  let responseData ← getStr ps "response_data"
  let merchantApiKey ← getStr ps "merchant_api_key"
  some { Timestamp := timestamp, ErrorLevel := errorLevel, ErrorCode := errorCode,
         ClientMessageUz := cmUz, ClientMessageRu := cmRu, ErrorMessage := errorMessage,
         DetailsUz := dUz, DetailsRu := dRu, ApiEndpoint := apiEndpoint, Method := method,
         FunctionName := functionName, StatusCode := statusCode,
         RequestPayload := requestPayload, EventType := eventType,
         ResponseData := responseData, MerchantApiKey := merchantApiKey }

/-- `json.Unmarshal` of a full wire document into a record. -/
def jsonUnmarshal (s : String) : Option logRequest :=
  match parseObj s.data with
  | some (ps, []) => recordOfPairs ps
  | _ => none

end MBLogger

namespace rabbitmq

/-- The outcomes the two underlying `Close` calls would produce:
the error, if any, of `channel.Close()` and of `conn.Close()`. -/
structure RabbitMQState where
  channelCloseErr : Option String
  connCloseErr : Option String
deriving Repr, DecidableEq

/-- Result of `Close`: the returned Go error, and whether each of the
two underlying close calls was attempted. -/
structure CloseTrace where
  result : Option String
  channelCloseAttempted : Bool
  connCloseAttempted : Bool
deriving Repr, DecidableEq

/-- `rabbitmq.Close` from `rabbitMQ/rabbitmq.go`: close the channel; on
error return it immediately (the connection close is not reached);
otherwise close the connection and return its result. -/
def Close (r : RabbitMQState) : CloseTrace :=
  match r.channelCloseErr with
  | some e => ⟨some e, true, false⟩
  | none =>
    match r.connCloseErr with
    | some e => ⟨some e, true, true⟩
    | none => ⟨none, true, true⟩

end rabbitmq

namespace MBLogger

/-- When payload normalization succeeds, `populateLogRequest` succeeds
and every field of the produced record is determined by the inputs, with
the endpoint and status-code fallbacks applied. -/
theorem populateLogRequest_eq_ok (l : LoggerState) (log : LogRequest) (sev now body : String)
    (h : normalizePayload log.RequestPayload = .ok body) :
    populateLogRequest l log sev now = .ok
      { Timestamp := now
        ErrorLevel := sev
        ErrorCode := log.ErrorCode
        ClientMessageUz := log.ClientMessageUz
        ClientMessageRu := log.ClientMessageRu
        ErrorMessage := log.ErrorMessage
        DetailsUz := log.DetailsUz
        DetailsRu := log.DetailsRu
        ApiEndpoint := if log.ApiEndpoint = "" then l.apiEndpoint else log.ApiEndpoint
        Method := log.Method
        FunctionName := l.functionName
        StatusCode := if log.StatusCode = 0 then 200 else log.StatusCode
        RequestPayload := body
        EventType := log.EventType
        ResponseData := log.ResponseData
        MerchantApiKey := log.MerchantApiKey } := by
  unfold populateLogRequest
  rw [h]
  by_cases h1 : log.ApiEndpoint = "" <;> by_cases h2 : log.StatusCode = 0 <;>
    simp [h1, h2]

/-- C1: for a record with a non-zero error code and at least one
non-empty client message, if the normalized payload is the empty string
then `Build` fails with the payload validation error for severities
`error` and `critical`, and succeeds for severities `info` and
`warning`. -/
theorem c1_payload_required_only_for_error_and_critical
    (l : LoggerState) (log : LogRequest) (now : String)
    (hcode : log.ErrorCode ≠ 0)
    (hmsg : log.ClientMessageUz ≠ "" ∨ log.ClientMessageRu ≠ "")
    (hpay : normalizePayload log.RequestPayload = .ok "") :
    (∀ sev, sev = "error" ∨ sev = "critical" →
      Build l log sev now =
        .error (.validationErr "request payload is required for this error level")) ∧
    (∀ sev, sev = "info" ∨ sev = "warning" → ∃ r, Build l log sev now = .ok r) := by
  constructor
  · intro sev hsev
    simp only [Build, populateLogRequest_eq_ok l log sev now "" hpay]
    rcases hsev with h | h <;> subst h <;>
      rcases hmsg with hm | hm <;>
        simp [validateLogRequest, hcode, hm]
  · intro sev hsev
    simp only [Build, populateLogRequest_eq_ok l log sev now "" hpay]
    rcases hsev with h | h <;> subst h <;>
      rcases hmsg with hm | hm <;>
        simp [validateLogRequest, hcode, hm]

/-- C1 witness: a concrete request with error code 1001, Uzbek message
`"x"` and empty string payload fails `Build` at severity `error` and
succeeds at severity `info`. -/
theorem c1_payload_required_only_for_error_and_critical_witness :
    (Build ⟨"logs", "orders", "fn", "/api", fun _ _ => none⟩
        ⟨1001, "x", "", "", "", "", "", "", 0, .str "", "", "", ""⟩ "error" "t" =
      .error (.validationErr "request payload is required for this error level")) ∧
    (∃ r, Build ⟨"logs", "orders", "fn", "/api", fun _ _ => none⟩
        ⟨1001, "x", "", "", "", "", "", "", 0, .str "", "", "", ""⟩ "info" "t" = .ok r) := by
  have h := c1_payload_required_only_for_error_and_critical
    ⟨"logs", "orders", "fn", "/api", fun _ _ => none⟩
    ⟨1001, "x", "", "", "", "", "", "", 0, .str "", "", "", ""⟩ "t"
    (by decide) (Or.inl (by decide)) rfl
  exact ⟨h.1 "error" (Or.inl rfl), h.2 "info" (Or.inl rfl)⟩

/-- C2: evaluating `Warn` at a concrete valid request shows that the
published record carries `error_level` `"info"`, not `"warning"`: the
source's `Warn` (like `Error` and `Critical`) passes the severity tag
`"info"` to the record builder. -/
theorem c2_warn_publishes_info_level :
    Warn ⟨"logs", "orders", "fn", "/api", fun _ _ => none⟩
        ⟨1001, "x", "", "", "", "", "", "", 0, .str "p", "", "", ""⟩ "t" =
      (none, [⟨"logs", "",
        .logBody ⟨"t", "info", 1001, "x", "", "", "", "", "/api", "", "fn", 200, "p", "", "", ""⟩⟩]) ∧
    Critical ⟨"logs", "orders", "fn", "/api", fun _ _ => none⟩
        ⟨1001, "x", "", "", "", "", "", "", 0, .str "p", "", "", ""⟩ "t" =
      (none, [⟨"logs", "",
        .logBody ⟨"t", "info", 1001, "x", "", "", "", "", "/api", "", "fn", 200, "p", "", "", ""⟩⟩]) :=
  ⟨rfl, rfl⟩

/-- C3: evaluating `OrderNotification` on a logger whose order queue was
never configured (empty name): the call succeeds and performs a network
publish of the order to the primary log queue `"logs"`, instead of
failing without publishing — the source publishes to `l.queue` and never
consults `l.orderQueue`. -/
theorem c3_order_notification_publishes_to_log_queue :
    OrderNotification ⟨"logs", "", "fn", "/api", fun _ _ => none⟩ ⟨"two pizzas", "m1"⟩ =
      (none, [⟨"logs", "", .orderBody ⟨"two pizzas", "m1"⟩⟩]) := rfl

/-- C4 counterexample: when both underlying closes would fail, `Close`
returns only the channel error and never attempts the connection close,
refuting the claim that the connection release is attempted and both
failures reported. -/
theorem c4_close_skips_connection_on_channel_failure :
    rabbitmq.Close ⟨some "channel close failed", some "connection close failed"⟩ =
      ⟨some "channel close failed", true, false⟩ := rfl

/-- C4 amended: `Close` always attempts the channel release first; if it
fails, its error is returned and the connection release is not
attempted; otherwise the connection release is attempted and its outcome
is the result. -/
theorem c4_close_channel_first_early_return (r : rabbitmq.RabbitMQState) :
    (rabbitmq.Close r).channelCloseAttempted = true ∧
    (∀ e, r.channelCloseErr = some e → rabbitmq.Close r = ⟨some e, true, false⟩) ∧
    (r.channelCloseErr = none →
      (rabbitmq.Close r).connCloseAttempted = true ∧
      (rabbitmq.Close r).result = r.connCloseErr) := by
  obtain ⟨ch, cn⟩ := r
  refine ⟨?_, ?_, ?_⟩
  · cases ch <;> cases cn <;> rfl
  · intro e he
    cases ch <;> simp_all [rabbitmq.Close]
  · intro he
    subst he
    cases cn <;> simp [rabbitmq.Close]

/-- C4 amended witness: at concrete close outcomes, the channel error is
returned without a connection close attempt, and after a successful
channel close the connection outcome is the result. -/
theorem c4_close_channel_first_early_return_witness :
    rabbitmq.Close ⟨some "chan boom", none⟩ = ⟨some "chan boom", true, false⟩ ∧
    (rabbitmq.Close ⟨none, some "conn boom"⟩).result = some "conn boom" := by
  exact ⟨(c4_close_channel_first_early_return ⟨some "chan boom", none⟩).2.1 "chan boom" rfl,
    ((c4_close_channel_first_early_return ⟨none, some "conn boom"⟩).2.2 rfl).2⟩

/-- C5 counterexample: a partial record with non-zero error code 1001
and non-empty Uzbek message, built at severity `error` with an empty
payload, makes `Build` fail — so `Build` does not succeed for every such
partial record. -/
theorem c5_build_can_fail_despite_code_and_message :
    Build ⟨"logs", "orders", "fn", "/api", fun _ _ => none⟩
        ⟨1001, "x", "y", "", "", "", "", "", 0, .str "", "", "", ""⟩ "error" "t" =
      .error (.validationErr "request payload is required for this error level") := rfl

/-- C5 amended: with non-zero error code, at least one non-empty client
message, a non-empty severity, a successfully normalized payload, and a
non-empty payload when severity is `error`/`critical`, `Build` succeeds
and the result's status code is 200 when the input status code was 0 and
equals the input otherwise, and its endpoint is the facade's configured
endpoint when the input endpoint was empty and the input otherwise. -/
theorem c5_build_applies_defaults (l : LoggerState) (log : LogRequest) (sev now body : String)
    (hcode : log.ErrorCode ≠ 0)
    (hmsg : log.ClientMessageUz ≠ "" ∨ log.ClientMessageRu ≠ "")
    (hsev : sev ≠ "")
    (hpay : normalizePayload log.RequestPayload = .ok body)
    (hbody : (sev = "error" ∨ sev = "critical") → body ≠ "") :
    ∃ r, Build l log sev now = .ok r ∧
      r.StatusCode = (if log.StatusCode = 0 then 200 else log.StatusCode) ∧
      r.ApiEndpoint = (if log.ApiEndpoint = "" then l.apiEndpoint else log.ApiEndpoint) := by
  simp only [Build, populateLogRequest_eq_ok l log sev now body hpay]
  have h3 : ¬ (sev = "" ∨ ((sev = "error" ∨ sev = "critical") ∧ body = "")) := by
    rintro (h | ⟨hs, hb⟩)
    · exact hsev h
    · exact hbody hs hb
  rcases hmsg with hm | hm <;> simp [validateLogRequest, hcode, hm, h3]

/-- C5 amended witness: a concrete build with input status code 0 and
empty endpoint receives status code 200 and the facade's endpoint, and
one with status code 404 and its own endpoint keeps both. -/
theorem c5_build_applies_defaults_witness :
    (∃ r, Build ⟨"logs", "orders", "fn", "/api", fun _ _ => none⟩
        ⟨1001, "x", "", "", "", "", "", "", 0, .str "p", "", "", ""⟩ "info" "t" = .ok r ∧
      r.StatusCode = 200 ∧ r.ApiEndpoint = "/api") ∧
    (∃ r, Build ⟨"logs", "orders", "fn", "/api", fun _ _ => none⟩
        ⟨1001, "x", "", "", "", "", "/own", "", 404, .str "p", "", "", ""⟩ "info" "t" = .ok r ∧
      r.StatusCode = 404 ∧ r.ApiEndpoint = "/own") := by
  constructor
  · obtain ⟨r, h1, h2, h3⟩ := c5_build_applies_defaults
      ⟨"logs", "orders", "fn", "/api", fun _ _ => none⟩
      ⟨1001, "x", "", "", "", "", "", "", 0, .str "p", "", "", ""⟩ "info" "t" "p"
      (by decide) (Or.inl (by decide)) (by decide) rfl (by rintro (h | h) <;> simp_all)
    exact ⟨r, h1, by simpa using h2, by simpa using h3⟩
  · obtain ⟨r, h1, h2, h3⟩ := c5_build_applies_defaults
      ⟨"logs", "orders", "fn", "/api", fun _ _ => none⟩
      ⟨1001, "x", "", "", "", "", "/own", "", 404, .str "p", "", "", ""⟩ "info" "t" "p"
      (by decide) (Or.inl (by decide)) (by decide) rfl (by rintro (h | h) <;> simp_all)
    exact ⟨r, h1, by simpa using h2, by simpa using h3⟩

/-- C6 counterexample: a partial record with error code 0 whose payload
cannot be serialized makes `Build` fail with the serialization error,
not with a `ValidationError` naming the missing field. -/
theorem c6_serialization_failure_preempts_validation :
    Build ⟨"logs", "orders", "fn", "/api", fun _ _ => none⟩
        ⟨0, "", "", "", "", "", "", "", 0,
          .unserializable "json: unsupported type: chan int", "", "", ""⟩ "info" "t" =
      .error (.serializationErr "json: unsupported type: chan int") := rfl

/-- C6 amended: for a partial record with error code 0 or with both
client messages empty, `Build` never succeeds, and whenever payload
normalization succeeds it fails with the `ValidationError` naming the
missing field (the error-code check coming first). -/
theorem c6_build_rejects_missing_fields (l : LoggerState) (log : LogRequest) (sev now : String)
    (h : log.ErrorCode = 0 ∨ (log.ClientMessageUz = "" ∧ log.ClientMessageRu = "")) :
    (∀ r, Build l log sev now ≠ .ok r) ∧
    (∀ body, normalizePayload log.RequestPayload = .ok body →
      Build l log sev now = .error (.validationErr
        (if log.ErrorCode = 0 then "error_code is required"
         else "at least one client message (Uz or Ru) is required"))) := by
  have key : ∀ body, normalizePayload log.RequestPayload = .ok body →
      Build l log sev now = .error (.validationErr
        (if log.ErrorCode = 0 then "error_code is required"
         else "at least one client message (Uz or Ru) is required")) := by
    intro body hpay
    simp only [Build, populateLogRequest_eq_ok l log sev now body hpay]
    by_cases hc : log.ErrorCode = 0
    · simp [validateLogRequest, hc]
    · rcases h with h | ⟨h1, h2⟩
      · exact absurd h hc
      · simp [validateLogRequest, hc, h1, h2]
  refine ⟨?_, key⟩
  intro r
  cases hn : normalizePayload log.RequestPayload with
  | error e => simp [Build, populateLogRequest, hn]
  | ok body =>
    rw [key body hn]
    simp

/-- C6 amended witness: a concrete build with error code 0 fails naming
`error_code`, and one with code 2001 but both messages empty fails
naming the client messages. -/
theorem c6_build_rejects_missing_fields_witness :
    Build ⟨"logs", "orders", "fn", "/api", fun _ _ => none⟩
        ⟨0, "x", "", "", "", "", "", "", 0, .str "p", "", "", ""⟩ "info" "t" =
      .error (.validationErr "error_code is required") ∧
    Build ⟨"logs", "orders", "fn", "/api", fun _ _ => none⟩
        ⟨2001, "", "", "", "", "", "", "", 0, .str "p", "", "", ""⟩ "info" "t" =
      .error (.validationErr "at least one client message (Uz or Ru) is required") := by
  constructor
  · have h := (c6_build_rejects_missing_fields
      ⟨"logs", "orders", "fn", "/api", fun _ _ => none⟩
      ⟨0, "x", "", "", "", "", "", "", 0, .str "p", "", "", ""⟩ "info" "t"
      (Or.inl rfl)).2 "p" rfl
    simpa using h
  · have h := (c6_build_rejects_missing_fields
      ⟨"logs", "orders", "fn", "/api", fun _ _ => none⟩
      ⟨2001, "", "", "", "", "", "", "", 0, .str "p", "", "", ""⟩ "info" "t"
      (Or.inr ⟨rfl, rfl⟩)).2 "p" rfl
    simpa using h

/-- C7: payload normalization uses a byte-slice payload as-is, a string
payload as-is, and JSON-serializes any other value; `Build` fails with a
serialization error exactly when the payload is unserializable, and the
payload field of every successfully built record is the normalization's
result. -/
theorem c7_payload_normalization (l : LoggerState) (log : LogRequest) (sev now : String) :
    (∀ s, log.RequestPayload = .bytes s → normalizePayload log.RequestPayload = .ok s) ∧
    (∀ s, log.RequestPayload = .str s → normalizePayload log.RequestPayload = .ok s) ∧
    (∀ v, log.RequestPayload = .json v →
      normalizePayload log.RequestPayload = .ok (String.mk (serializeJson v))) ∧
    ((∃ m, Build l log sev now = .error (.serializationErr m)) ↔
      (∃ d, log.RequestPayload = .unserializable d)) ∧
    (∀ r, Build l log sev now = .ok r →
      normalizePayload log.RequestPayload = .ok r.RequestPayload) := by
  refine ⟨fun s hs => by rw [hs]; rfl, fun s hs => by rw [hs]; rfl,
    fun v hv => by rw [hv]; rfl, ?_, ?_⟩
  · constructor
    · rintro ⟨m, hm⟩
      cases hn : normalizePayload log.RequestPayload with
      | error e =>
        cases hp : log.RequestPayload <;> rw [hp] at hn <;>
          first
          | exact ⟨_, rfl⟩
          | simp [normalizePayload] at hn
      | ok body =>
        simp only [Build, populateLogRequest_eq_ok l log sev now body hn] at hm
        split at hm <;> simp_all
    · rintro ⟨d, hd⟩
      exact ⟨d, by simp [Build, populateLogRequest, normalizePayload, hd]⟩
  · intro r hr
    cases hn : normalizePayload log.RequestPayload with
    | error e => simp [Build, populateLogRequest, hn] at hr
    | ok body =>
      simp only [Build, populateLogRequest_eq_ok l log sev now body hn] at hr
      split at hr
      · exact absurd hr (by simp)
      · rw [Except.ok.injEq] at hr
        subst hr
        rfl

/-- C7 witness: concrete normalizations — a byte payload and a string
payload pass through, a structured array payload is JSON-serialized, and
an unserializable payload makes `Build` fail with the serialization
error. -/
theorem c7_payload_normalization_witness :
    normalizePayload (GoValue.str "abc") = .ok "abc" ∧
    normalizePayload (GoValue.bytes "raw") = .ok "raw" ∧
    normalizePayload (GoValue.json (.jarr [.jnum 1, .jstr "a"])) = .ok "[1,\"a\"]" ∧
    (∃ m, Build ⟨"logs", "orders", "fn", "/api", fun _ _ => none⟩
        ⟨1001, "x", "", "", "", "", "", "", 0, .unserializable "json: unsupported type: func()", "", "", ""⟩
        "info" "t" = .error (.serializationErr m)) := by
  refine ⟨?_, ?_, ?_, ?_⟩
  · exact (c7_payload_normalization ⟨"logs", "orders", "fn", "/api", fun _ _ => none⟩
      ⟨1001, "x", "", "", "", "", "", "", 0, .str "abc", "", "", ""⟩ "info" "t").2.1 "abc" rfl
  · exact (c7_payload_normalization ⟨"logs", "orders", "fn", "/api", fun _ _ => none⟩
      ⟨1001, "x", "", "", "", "", "", "", 0, .bytes "raw", "", "", ""⟩ "info" "t").1 "raw" rfl
  · exact (c7_payload_normalization ⟨"logs", "orders", "fn", "/api", fun _ _ => none⟩
      ⟨1001, "x", "", "", "", "", "", "", 0, .json (.jarr [.jnum 1, .jstr "a"]), "", "", ""⟩
      "info" "t").2.2.1 (.jarr [.jnum 1, .jstr "a"]) rfl
  · exact ((c7_payload_normalization ⟨"logs", "orders", "fn", "/api", fun _ _ => none⟩
      ⟨1001, "x", "", "", "", "", "", "", 0, .unserializable "json: unsupported type: func()", "", "", ""⟩
      "info" "t").2.2.2.1).2 ⟨"json: unsupported type: func()", rfl⟩

/-- C9: when the record builder reports a validation failure, every
severity operation returns that validation error and performs no
`PublishMessage` call. -/
theorem c9_validation_failure_blocks_publish (l : LoggerState) (log : LogRequest)
    (now m : String) (h : Build l log "info" now = .error (.validationErr m)) :
    Info l log now = (some (.validationErr m), []) ∧
    Warn l log now = (some (.validationErr m), []) ∧
    Error l log now = (some (.validationErr m), []) ∧
    Critical l log now = (some (.validationErr m), []) := by
  exact ⟨by simp [Info, h], by simp [Warn, h], by simp [Error, h], by simp [Critical, h]⟩

/-- C9 witness: a request with error code 0 fails validation, and `Info`
returns the validation error with an empty publish trace. -/
theorem c9_validation_failure_blocks_publish_witness :
    Info ⟨"logs", "orders", "fn", "/api", fun _ _ => none⟩
        ⟨0, "x", "", "", "", "", "", "", 0, .str "p", "", "", ""⟩ "t" =
      (some (.validationErr "error_code is required"), []) := by
  exact (c9_validation_failure_blocks_publish
    ⟨"logs", "orders", "fn", "/api", fun _ _ => none⟩
    ⟨0, "x", "", "", "", "", "", "", 0, .str "p", "", "", ""⟩ "t"
    "error_code is required" rfl).1

/-- C10: a `nil` request payload (Go interface `nil`, JSON-marshalled) is
normalized to the non-empty string `"null"`, so a record built at
severity `error` or `critical` from a nil payload passes the non-empty
payload validation and `Build` succeeds. -/
theorem c10_nil_payload_normalizes_to_null (l : LoggerState) (log : LogRequest)
    (sev now : String)
    (hp : log.RequestPayload = .json .jnull)
    (hcode : log.ErrorCode ≠ 0)
    (hmsg : log.ClientMessageUz ≠ "" ∨ log.ClientMessageRu ≠ "")
    (hsev : sev = "error" ∨ sev = "critical") :
    ∃ r, Build l log sev now = .ok r ∧ r.RequestPayload = "null" := by
  have hn : normalizePayload log.RequestPayload = .ok "null" := by rw [hp]; rfl
  simp only [Build, populateLogRequest_eq_ok l log sev now "null" hn]
  rcases hsev with h | h <;> subst h <;> rcases hmsg with hm | hm <;>
    simp [validateLogRequest, hcode, hm]

/-- C10 witness: a concrete record with a nil payload builds successfully
at severity `critical` with payload field `"null"`. -/
theorem c10_nil_payload_normalizes_to_null_witness :
    ∃ r, Build ⟨"logs", "orders", "fn", "/api", fun _ _ => none⟩
        ⟨4001, "x", "", "", "", "", "", "", 0, .json .jnull, "", "", ""⟩ "critical" "t" =
      .ok r ∧ r.RequestPayload = "null" := by
  exact c10_nil_payload_normalizes_to_null
    ⟨"logs", "orders", "fn", "/api", fun _ _ => none⟩
    ⟨4001, "x", "", "", "", "", "", "", 0, .json .jnull, "", "", ""⟩ "critical" "t"
    rfl (by decide) (Or.inl (by decide)) (Or.inr rfl)

/-! ### Round-trip of the wire serialization (claim C8) -/

/-- Writing an escape and decoding it gives back the original
character. -/
theorem unescapeCode_escapeCode {c d : Char} (h : escapeCode c = some d) :
    unescapeCode d = some c := by
  unfold escapeCode at h
  split_ifs at h with h1 h2 h3 h4 h5
  · injection h with h; subst h; subst h1; decide
  · injection h with h; subst h; subst h2; decide
  · injection h with h; subst h; subst h3; decide
  · injection h with h; subst h; subst h4; decide
  · injection h with h; subst h; subst h5; decide

/-- Characters written without an escape are neither a quote nor a
backslash. -/
theorem escapeCode_eq_none {c : Char} (h : escapeCode c = none) :
    c ≠ '\"' ∧ c ≠ '\\' := by
  unfold escapeCode at h
  split_ifs at h with h1 h2 h3 h4 h5
  exact ⟨h1, h2⟩

/-- The string-body parser consumes an escaped body up to its closing
quote and leaves the suffix intact. -/
theorem parseStringBody_escapeList (l rest : List Char) :
    parseStringBody (escapeList l ++ '\"' :: rest) = some (l, rest) := by
  induction l with
  | nil =>
    rw [escapeList, List.nil_append, parseStringBody.eq_def]
    simp
  | cons c cs ih =>
    cases he : escapeCode c with
    | some d =>
      have hu := unescapeCode_escapeCode he
      simp only [escapeList, escapeChar, he, List.cons_append, List.nil_append]
      rw [parseStringBody.eq_def]
      simp [hu, ih]
    | none =>
      obtain ⟨h1, h2⟩ := escapeCode_eq_none he
      simp only [escapeList, escapeChar, he, List.cons_append, List.nil_append]
      rw [parseStringBody.eq_def]
      simp [h1, h2, ih]

/-- The string-literal parser inverts the string-literal encoder and
leaves the suffix intact. -/
theorem parseStringLit_encodeStringLit (s : String) (rest : List Char) :
    parseStringLit (encodeStringLit s ++ rest) = some (s, rest) := by
  obtain ⟨l⟩ := s
  simp [encodeStringLit, parseStringLit, parseStringBody_escapeList]

/-- A list not opening with a quote is not a string literal. -/
theorem parseStringLit_not_quote {c : Char} (h : c ≠ '\"') (cs : List Char) :
    parseStringLit (c :: cs) = none := by
  simp [parseStringLit, h]

/-- Digit characters are recognized as digits. -/
theorem isDigitChar_digitChar {d : Nat} (h : d < 10) :
    isDigitChar (digitChar d) = true := by
  interval_cases d <;> decide

/-- Digit characters decode to their digit. -/
theorem digitChar_val {d : Nat} (h : d < 10) : (digitChar d).toNat - 48 = d := by
  interval_cases d <;> decide

/-- The fuelled digit writer computes the decimal digits, most
significant first. -/
theorem encodeNatAux_eq_digits :
    ∀ fuel n, n ≤ fuel → encodeNatAux fuel n = (Nat.digits 10 n).reverse.map digitChar := by
  intro fuel
  induction fuel with
  | zero =>
    intro n h
    interval_cases n
    simp [encodeNatAux]
  | succ fuel ih =>
    intro n h
    by_cases h0 : n = 0
    · subst h0
      simp [encodeNatAux]
    · have hd : Nat.digits 10 n = n % 10 :: Nat.digits 10 (n / 10) :=
        @Nat.digits_def' 10 (by norm_num) n (Nat.pos_of_ne_zero h0)
      have hdiv : n / 10 ≤ fuel := by
        have hlt : n / 10 < n := Nat.div_lt_self (Nat.pos_of_ne_zero h0) (by norm_num)
        omega
      simp [encodeNatAux, h0, ih (n / 10) hdiv, hd]

/-- Every character of an encoded natural number is a digit. -/
theorem encodeNat_all_digits (n : Nat) : ∀ c ∈ encodeNat n, isDigitChar c = true := by
  intro c hc
  unfold encodeNat at hc
  by_cases h0 : n = 0
  · rw [if_pos h0] at hc
    simp at hc
    subst hc
    decide
  · rw [if_neg h0, encodeNatAux_eq_digits n n le_rfl] at hc
    simp only [List.mem_map, List.mem_reverse] at hc
    obtain ⟨d, hd, rfl⟩ := hc
    exact isDigitChar_digitChar (Nat.digits_lt_base (by norm_num) hd)

/-- An encoded natural number has at least one digit. -/
theorem encodeNat_ne_nil (n : Nat) : encodeNat n ≠ [] := by
  unfold encodeNat
  by_cases h0 : n = 0
  · simp [h0]
  · rw [if_neg h0, encodeNatAux_eq_digits n n le_rfl]
    simp [Nat.digits_ne_nil_iff_ne_zero, h0]

/-- Reading the digits of an encoded natural number recovers it. -/
theorem digitsVal_encodeNat (n : Nat) : digitsVal (encodeNat n) = n := by
  unfold encodeNat digitsVal
  by_cases h0 : n = 0
  · rw [if_pos h0, h0]
    simp [Nat.ofDigits]
  · rw [if_neg h0, encodeNatAux_eq_digits n n le_rfl]
    have hmap : ((Nat.digits 10 n).reverse.map digitChar).map (fun c => c.toNat - 48)
        = (Nat.digits 10 n).reverse := by
      rw [List.map_map]
      have hpt : ∀ d ∈ (Nat.digits 10 n).reverse,
          ((fun c => c.toNat - 48) ∘ digitChar) d = d := by
        intro d hd
        exact digitChar_val (Nat.digits_lt_base (by norm_num) (List.mem_reverse.mp hd))
      rw [List.map_congr_left hpt, List.map_id']
    rw [hmap, List.reverse_reverse, Nat.ofDigits_digits]

/-- `takeDigits` consumes exactly a run of digits followed by a
non-digit. -/
theorem takeDigits_append (ds rest : List Char) (hds : ∀ c ∈ ds, isDigitChar c = true)
    (hrest : noLeadDigit rest = true) :
    takeDigits (ds ++ rest) = (ds, rest) := by
  induction ds with
  | nil =>
    cases rest with
    | nil => simp [takeDigits]
    | cons c cs =>
      simp only [noLeadDigit, Bool.not_eq_true'] at hrest
      simp [takeDigits, hrest]
  | cons c cs ih =>
    have hc := hds c (by simp)
    simp [takeDigits, hc, ih fun x hx => hds x (by simp [hx])]

/-- The natural-number parser inverts the encoder when the suffix does
not begin with a digit. -/
theorem parseNat_encodeNat (n : Nat) (rest : List Char) (hrest : noLeadDigit rest = true) :
    parseNat (encodeNat n ++ rest) = some (n, rest) := by
  unfold parseNat
  rw [takeDigits_append _ _ (encodeNat_all_digits n) hrest]
  simp [encodeNat_ne_nil n, digitsVal_encodeNat n]

/-- The integer parser inverts the encoder when the suffix does not
begin with a digit. -/
theorem parseInt_encodeInt (n : Int) (rest : List Char) (hrest : noLeadDigit rest = true) :
    parseInt (encodeInt n ++ rest) = some (n, rest) := by
  by_cases hneg : n < 0
  · rw [encodeInt, if_pos hneg, List.cons_append]
    have h1 : parseInt ('-' :: (encodeNat n.natAbs ++ rest)) =
        (parseNat (encodeNat n.natAbs ++ rest)).map fun p => (-(p.1 : Int), p.2) := by
      rw [parseInt.eq_def]
      simp
    rw [h1, parseNat_encodeNat n.natAbs rest hrest]
    simp only [Option.map_some']
    have hval : -((n.natAbs : Nat) : Int) = n := by omega
    rw [hval]
  · rw [encodeInt, if_neg hneg]
    obtain ⟨c, cs, hc⟩ : ∃ c cs, encodeNat n.toNat = c :: cs := by
      cases h : encodeNat n.toNat with
      | nil => exact absurd h (encodeNat_ne_nil _)
      | cons c cs => exact ⟨c, cs, rfl⟩
    have hdig : isDigitChar c = true := encodeNat_all_digits _ c (by rw [hc]; simp)
    have hcm : c ≠ '-' := by
      intro h
      rw [h] at hdig
      simp [isDigitChar] at hdig
    have h1 : parseInt ((c :: cs) ++ rest) =
        (parseNat ((c :: cs) ++ rest)).map fun p => ((p.1 : Int), p.2) := by
      rw [List.cons_append, parseInt.eq_def]
      simp [hcm]
    rw [hc, h1, ← hc, parseNat_encodeNat n.toNat rest hrest]
    simp only [Option.map_some']
    have hval : ((n.toNat : Nat) : Int) = n := by omega
    rw [hval]

/-- The head of an encoded integer: a minus sign or a digit, never a
quote. -/
theorem encodeInt_head_not_quote (n : Int) :
    ∃ c cs, encodeInt n ++ [] = c :: cs ∧ c ≠ '\"' := by
  unfold encodeInt
  by_cases hneg : n < 0
  · exact ⟨'-', encodeNat n.natAbs, by rw [if_pos hneg]; simp, by decide⟩
  · obtain ⟨c, cs, hc⟩ : ∃ c cs, encodeNat n.toNat = c :: cs := by
      cases h : encodeNat n.toNat with
      | nil => exact absurd h (encodeNat_ne_nil _)
      | cons c cs => exact ⟨c, cs, rfl⟩
    have hdig : isDigitChar c = true := encodeNat_all_digits _ c (by rw [hc]; simp)
    refine ⟨c, cs, by rw [if_neg hneg, hc]; simp, ?_⟩
    intro h
    rw [h] at hdig
    simp [isDigitChar] at hdig

/-- The member-value parser inverts the member-value encoder. -/
theorem parseField_encodeField (f : JField) (rest : List Char)
    (hrest : noLeadDigit rest = true) :
    parseField (encodeField f ++ rest) = some (f, rest) := by
  cases f with
  | fstr s =>
    simp [parseField, encodeField, parseStringLit_encodeStringLit s rest]
  | fint n =>
    obtain ⟨c, cs, hc, hq⟩ := encodeInt_head_not_quote n
    rw [List.append_nil] at hc
    rw [encodeField, hc, List.cons_append, parseField,
      parseStringLit_not_quote hq (cs ++ rest), ← List.cons_append, ← hc,
      parseInt_encodeInt n rest hrest]
    rfl

/-- The member parser inverts the member encoder. -/
theorem parsePair_encodePair (p : String × JField) (rest : List Char)
    (hrest : noLeadDigit rest = true) :
    parsePair (encodePair p ++ rest) = some (p, rest) := by
  obtain ⟨k, f⟩ := p
  have hshape : encodePair (k, f) ++ rest
      = encodeStringLit k ++ (':' :: (encodeField f ++ rest)) := by
    simp [encodePair]
  rw [hshape, parsePair, parseStringLit_encodeStringLit k (':' :: (encodeField f ++ rest))]
  simp [parseField_encodeField f rest hrest]

/-- The member-list parser inverts the member-list encoder up to the
closing brace, given one unit of fuel per member. -/
theorem parsePairsAux_encodePairs :
    ∀ (ps : List (String × JField)) (fuel : Nat) (rest : List Char), ps ≠ [] →
      ps.length ≤ fuel →
      parsePairsAux fuel (encodePairs ps ++ '\x7d' :: rest) = some (ps, '\x7d' :: rest) := by
  intro ps
  induction ps with
  | nil => exact fun fuel rest h _ => absurd rfl h
  | cons p ps ih =>
    intro fuel rest _ hlen
    cases fuel with
    | zero => simp at hlen
    | succ fuel =>
      cases ps with
      | nil =>
        simp only [encodePairs]
        rw [parsePairsAux, parsePair_encodePair p ('\x7d' :: rest) rfl]
        rfl
      | cons q ps' =>
        have hshape : encodePairs (p :: q :: ps') ++ '\x7d' :: rest
            = encodePair p ++ (',' :: (encodePairs (q :: ps') ++ '\x7d' :: rest)) := by
          simp [encodePairs]
        rw [hshape, parsePairsAux,
          parsePair_encodePair p (',' :: (encodePairs (q :: ps') ++ '\x7d' :: rest)) rfl]
        simp [ih fuel rest (by simp) (by simpa using hlen)]

/-- Each member contributes at least one character. -/
theorem encodePairs_length (ps : List (String × JField)) :
    ps.length ≤ (encodePairs ps).length := by
  induction ps with
  | nil => simp [encodePairs]
  | cons p ps ih =>
    cases ps with
    | nil => simp [encodePairs, encodePair, encodeStringLit]
    | cons q ps' =>
      simp only [encodePairs, encodePair, encodeStringLit] at *
      simp only [List.length_append, List.length_cons] at *
      omega

/-- An encoded non-empty member list opens with a quote. -/
theorem encodePairs_cons_head (p : String × JField) (ps' : List (String × JField)) :
    ∃ t, encodePairs (p :: ps') = '\"' :: t := by
  cases ps' <;> simp [encodePairs, encodePair, encodeStringLit]

/-- The object parser inverts the object encoder and leaves the suffix
intact. -/
theorem parseObj_encodeObj (ps : List (String × JField)) (rest : List Char) :
    parseObj (encodeObj ps ++ rest) = some (ps, rest) := by
  cases ps with
  | nil => simp [encodeObj, encodePairs, parseObj]
  | cons p ps' =>
    obtain ⟨t, ht⟩ := encodePairs_cons_head p ps'
    have hshape : encodeObj (p :: ps') ++ rest
        = '\x7b' :: ('\"' :: (t ++ '\x7d' :: rest)) := by
      simp [encodeObj, ht]
    have hfuel : (p :: ps').length ≤ ('\"' :: (t ++ '\x7d' :: rest)).length := by
      have h1 := encodePairs_length (p :: ps')
      rw [ht] at h1
      simp only [List.length_cons, List.length_append] at h1 ⊢
      omega
    have hparse := parsePairsAux_encodePairs (p :: ps')
      ('\"' :: (t ++ '\x7d' :: rest)).length rest (by simp) hfuel
    rw [ht] at hparse
    rw [show ('\"' :: t) ++ '\x7d' :: rest = '\"' :: (t ++ '\x7d' :: rest) from rfl] at hparse
    simp only [List.length_cons, List.length_append] at hparse
    rw [hshape, parseObj]
    simp [hparse]

/-- Rebuilding a record from its own wire members recovers it. -/
theorem recordOfPairs_wireFields (r : logRequest) :
    recordOfPairs (wireFields r) = some r := by
  obtain ⟨ts, el, ec, uz, ru, em, duz, dru, ae, me, fn, sc, rp, et, rd, mak⟩ := r
  by_cases h1 : duz = "" <;> by_cases h2 : dru = "" <;>
    by_cases h3 : rd = "" <;> by_cases h4 : mak = "" <;>
      simp [recordOfPairs, wireFields, getStr, getInt, lookupF, h1, h2, h3, h4]

/-- C8: marshalling a log record to its JSON wire form and unmarshalling
that form yields the original record, for every record. -/
theorem c8_wire_roundtrip (r : logRequest) :
    jsonUnmarshal (jsonMarshal r) = some r := by
  unfold jsonMarshal jsonUnmarshal
  have h := parseObj_encodeObj (wireFields r) []
  rw [List.append_nil] at h
  show (match parseObj (encodeObj (wireFields r)) with
    | some (ps, []) => recordOfPairs ps
    | _ => none) = some r
  rw [h]
  exact recordOfPairs_wireFields r

end MBLogger
